import Mathlib

/-!
Verification of the watershed subdivision engine of `pyhspf/preprocessing/delineators.py`
(class `NHDPlusDelineator`).

The development shallowly embeds the algorithmic core of the module:

* the flowline network model (`Flowline`, dictionary lookups by `comid` and by
  hydrologic sequence number),
* the drainage-area subdivision fixed-point loop of `make_subbasin_outlets`
  (lines 1060-1121),
* the subbasin assembly flood fill of `make_subbasin_outlets` (lines 1123-1149),
* the gage outlet criteria of `make_subbasin_outlets` (lines 905-968),
* `closest_index` (lines 45-108),
* the overland flow plane helpers `get_overland` / `get_overland_vector`
  (lines 1745-1768) and the nearest flow point search of `combine_catchments`
  (lines 1888-1894),
* the subbasin classification branch of `build_watershed` (lines 537-553) and the
  unconditional `exit()` near the top of `build_watershed` (line 419).

Python floats are modelled as exact numbers in a linearly ordered carrier type `α`
(the numeric decisions relevant to the claims involve exactly representable
values; `get_overland`, which divides, is embedded over `ℚ`).  Python dictionaries
keyed by hydrologic sequence are association lists in insertion order, and Python
runtime errors (KeyError / TypeError / NameError) are explicit error results
wherever a claim depends on them.
-/

namespace PyHSPF

/-- One record of the flowline value-added attribute table (`flowlines[f]` in the
source): the `comid` identifier, the hydrologic sequence key, the upstream and
downstream hydrologic sequence references (`0` is the null sentinel), and the
cumulative (divergence-routed) drainage area `divarea`. -/
structure Flowline (α : Type) where
  comid : Nat
  hydroseq : Nat
  up : Nat
  down : Nat
  divarea : α
  deriving DecidableEq, Repr

variable {α : Type}

/-- Lookup of `flowlines[hydroseqs[c]]`: the first flowline whose comid is `c`
(`hydroseqs = {flowlines[f].comid: f for f in flowlines}` maps a comid to the key of
the record carrying it). `none` models a Python KeyError. -/
def findByComid (net : List (Flowline α)) (c : Nat) : Option (Flowline α) :=
  net.find? (fun f => f.comid == c)

/-- Lookup of `flowlines[h]` for a hydrologic sequence key `h`; `none` models a
Python KeyError. -/
def findByHydroseq (net : List (Flowline α)) (h : Nat) : Option (Flowline α) :=
  net.find? (fun f => f.hydroseq == h)

/-- `hydroseqs[c]`: the hydrologic sequence key registered for comid `c`. -/
def hydroseqOf (net : List (Flowline α)) (c : Nat) : Option Nat :=
  (findByComid net c).map (·.hydroseq)

/-! ### Overland flow plane estimation (`get_overland`, `get_overland_vector`)

`get_overland(p1, p2)` first computes `L = self.get_distance(p1, p2)` (the geodesic
distance in km) and then branches only on `L` and on the elevation difference
`p1[2] - p2[2]`.  The embedding takes those two quantities directly, so `L` stands
for the geodesic distance between the two points and `dz` for their elevation
difference.  `tolerance = 0.1` and `min_slope = 0.00001` are the source defaults. -/

/-- Embedding of `get_overland` (delineators.py lines 1745-1755):
`if L > tolerance: return L / 2., (p1[2] - p2[2]) / L / 100000`
`else: return tolerance, min_slope`. -/
def get_overland (L dz : ℚ) : ℚ × ℚ :=
  if (1 : ℚ)/10 < L then (L / 2, dz / L / 100000)
  else ((1 : ℚ)/10, (1 : ℚ)/100000)

/-- Embedding of the clamping loop of `get_overland_vector`
(delineators.py lines 1765-1766):
`for l, s in zip(length, slope):`
`    if l < tol: l, s = tol, min_slope`
The assignment rebinds the loop-local names `l` and `s` only; the `length` and
`slope` arrays are returned unchanged, so the loop has no effect on the result. -/
def clampLoop (length slope : List ℚ) : List ℚ × List ℚ :=
  (length, slope)

/-- Embedding of `get_overland_vector` (delineators.py lines 1757-1768), elementwise
over the vectors of geodesic distances `Ls` (from `get_distance_vector`) and
elevation differences `dzs` (`catchpoints[:,2] - closest[:,2]`):
`length = get_distance_vector(catchpoints, closest)`
`slope  = (catchpoints[:,2] - closest[:,2]) / length / 100000`
(clamping loop, see `clampLoop`)
`return length / 2., slope`. -/
def get_overland_vector (Ls dzs : List ℚ) : List ℚ × List ℚ :=
  let length := Ls
  let slope := List.zipWith (fun dz l => dz / l / 100000) dzs Ls
  let clamped := clampLoop length slope
  (clamped.1.map (· / 2), clamped.2)

/-! ### Nearest flow point search of `combine_catchments` -/

/-- First index of the minimum of a list (`numpy.argmin`: ties go to the first
occurrence). -/
def argminIdx [LinearOrder α] (l : List α) : Nat :=
  match l with
  | [] => 0
  | x :: xs =>
    (xs.foldl
      (fun acc v =>
        match acc with
        | (i, bi, bv) => if v < bv then (i + 1, i + 1, v) else (i + 1, bi, bv))
      ((0 : Nat), (0 : Nat), x)).2.1

/-- Embedding of `distance2` (delineators.py lines 40-43): the square of the planar
distance between two points. -/
def distance2 [Ring α] (p1 p2 : α × α) : α :=
  (p1.1 - p2.1)^2 + (p1.2 - p2.2)^2

/-- Embedding of the nearest flow point selection of `combine_catchments`
(delineators.py lines 1892-1894):
`closest[j] = flowpoints[numpy.dot(flowpoints[:, :2], point[:2]).argmin()]`
The selected index is the argmin of the dot products `x_f * x_p + y_f * y_p`,
not of any distance.  Flow points are `(x, y, z)` triples. -/
def closestFlowpointIdx [LinearOrderedRing α] (flowpoints : List (α × α × α))
    (point : α × α) : Nat :=
  argminIdx (flowpoints.map (fun fp => fp.1 * point.1 + fp.2.1 * point.2))

/-- The selection the spec describes for the same loop: the index of the flow point
minimizing the planar squared distance `distance2` to the interior point
(ties to the first occurrence).  Stated from the spec for comparison with
`closestFlowpointIdx`. -/
def specNearestIdx [LinearOrderedRing α] (flowpoints : List (α × α × α))
    (point : α × α) : Nat :=
  argminIdx (flowpoints.map (fun fp => distance2 (fp.1, fp.2.1) point))

/-! ### Subbasin classification in `build_watershed` -/

/-- The three ways `build_watershed` files a subbasin when building mass linkages
(delineators.py lines 543-553): an interior subbasin recording its upstream
neighbor comid, a watershed inlet, or a headwater. -/
inductive SubbasinClass where
  | interior (upcomid : Nat)
  | inlet
  | headwater
  deriving DecidableEq, Repr

/-- Embedding of the classification branch of `build_watershed`
(delineators.py lines 545-553), applied to the flowline `inletFl` of a subbasin's
uppermost member (`flowlines[hydroseqs[inlets[comid]]]`):
`if flowlines[inlet].up in flowlines: subbasin.add_inlet(comid of the up record)`
`elif flowlines[inlet].up != 0: watershed.add_inlet(comid)`
`else: watershed.add_headwater(comid)`. -/
def classify_subbasin (net : List (Flowline α)) (inletFl : Flowline α) :
    SubbasinClass :=
  match findByHydroseq net inletFl.up with
  | some upfl => SubbasinClass.interior upfl.comid
  | none => if inletFl.up ≠ 0 then SubbasinClass.inlet else SubbasinClass.headwater

/-! ### The unconditional `exit()` in `build_watershed` -/

/-- How a call of `build_watershed` ends: either the `Reader(self.catchmentfile)`
call raises before anything else happens, or the bare `exit()` on line 419 stops the
interpreter right after `print(sf.fields)`. -/
inductive BWTermination where
  | readError
  | exitCall
  deriving DecidableEq, Repr

/-- Which effects of `build_watershed` ever happen.  The fields track the work the
function is supposed to do after line 419: populating the `subbasins` dictionary
from the catchment records, classifying inlets/headwaters, building the mass
linkage map `updown`, and returning normally. -/
structure BWEffects where
  printedFields : Bool
  subbasinsConstructed : Bool
  inletsClassified : Bool
  massLinkageBuilt : Bool
  returnedNormally : Bool
  deriving DecidableEq, Repr

/-- Embedding of the executable head of `build_watershed`
(delineators.py lines 399-419).  The body up to the stopping point is
`subbasins = {}` ; `inlets = {}` ; `sf = Reader(self.catchmentfile, shapeType = 5)` ;
`print(sf.fields)` ; `exit()`.
The argument is the outcome of the `Reader` call (`Except.error` models a raised
exception, `.ok` carries the field list).  Everything from line 420 on is
unreachable, so no effect field past `printedFields` is ever set. -/
def build_watershed (catchmentRead : Except Unit (List Nat)) :
    BWTermination × BWEffects :=
  match catchmentRead with
  | Except.error _ => (BWTermination.readError,
      ⟨false, false, false, false, false⟩)
  | Except.ok _fields => (BWTermination.exitCall,
      ⟨true, false, false, false, false⟩)

/-! ### The drainage-area subdivision loop of `make_subbasin_outlets`

Embedding of delineators.py lines 973-975 and 1060-1121.  The dictionary
`flowlines` is a list of `Flowline` records in insertion order; the mutable Python
list `outlets` is threaded through explicitly.  The `while` loops of the source are
given explicit fuel; exhausted fuel in the outer loop returns `none` (the source
loop has no such exit, and the termination theorem shows the fuel chosen below
always suffices). -/

/-- Embedding of the inlet scan (delineators.py lines 973-975):
`for f in flowlines:`
`    if flowlines[f].up not in flowlines and flowlines[f].up != 0:`
`        inlets.append(flowlines[f].comid)`. -/
def findInlets (net : List (Flowline α)) : List Nat :=
  (net.filter
    (fun f => !(net.any (fun w => w.hydroseq == f.up)) && f.up != 0)).map (·.comid)

/-- Embedding of the per-outlet upstream walk (delineators.py lines 1081-1121),
the body of `while flowline.up not in boundaries:`.  `drain_area` is the cumulative
area of the outlet the walk started from; `boundaries = [0] + hydroseqs of inlets
and outlets` is fixed for the walk.  At the current `flowline` the walk
   - collects `tributaries`, the records whose `down` is the current hydroseq,
   - reads the major tributary `major = flowlines[flowline.up]`,
   - if some tributary is already an outlet or
     `flowline.divarea - major.divarea > drainmax`, appends every tributary comid
     not yet in `outlets` and stops,
   - else if `drain_area - flowline.divarea > drainmax`, appends the comid of
     `flowlines[flowline.down]` if not yet present and stops,
   - else moves up to `flowlines[flowline.up]`.
A failing dictionary lookup would raise KeyError in the source (a fatal
LookupFailure); the embedding then stops the walk without appending. -/
def walkAux [LinearOrder α] [Sub α] (net : List (Flowline α)) (drainmax : α)
    (boundaries : List Nat) (drain_area : α) :
    Nat → Flowline α → List Nat → List Nat
  | 0, _, outlets => outlets
  | fuel + 1, flowline, outlets =>
    if flowline.up ∈ boundaries then outlets
    else
      let tributaries := net.filter (fun f => f.down == flowline.hydroseq)
      match findByHydroseq net flowline.up with
      | none => outlets
      | some major =>
        if tributaries.any (fun f => decide (f.comid ∈ outlets)) ||
            decide (drainmax < flowline.divarea - major.divarea) then
          tributaries.foldl
            (fun acc f => if f.comid ∈ acc then acc else acc ++ [f.comid]) outlets
        else if drainmax < drain_area - flowline.divarea then
          match findByHydroseq net flowline.down with
          | none => outlets
          | some downfl =>
            if downfl.comid ∈ outlets then outlets else outlets ++ [downfl.comid]
        else walkAux net drainmax boundaries drain_area fuel major outlets

/-- Embedding of the setup of one outlet's walk (delineators.py lines 1072-1081):
`flowline = flowlines[hydroseqs[outlet]]`
`boundaries = [0] + [hydroseqs[b] for b in inlets + outlets]`
`drain_area = flowline.divarea`
then the upstream walk `walkAux`.  The walk fuel `net.length + 1` covers any
repetition-free upstream chain. -/
def walkOne [LinearOrder α] [Sub α] (net : List (Flowline α)) (drainmax : α)
    (inlets : List Nat) (outlets : List Nat) (outlet : Nat) : List Nat :=
  match findByComid net outlet with
  | none => outlets
  | some flowline =>
    let boundaries := 0 :: (inlets ++ outlets).filterMap (hydroseqOf net)
    walkAux net drainmax boundaries flowline.divarea (net.length + 1)
      flowline outlets

/-- Embedding of one pass `for outlet in outlets:` (delineators.py line 1072).
Python list iteration reads the element at the next index of the growing list, so
outlets appended during the pass are processed by the same pass; `i` is the
iteration index. -/
def passAux [LinearOrder α] [Sub α] (net : List (Flowline α)) (drainmax : α)
    (inlets : List Nat) : Nat → Nat → List Nat → List Nat
  | 0, _, outlets => outlets
  | fuel + 1, i, outlets =>
    match outlets[i]? with
    | none => outlets
    | some o =>
      passAux net drainmax inlets fuel (i + 1)
        (walkOne net drainmax inlets outlets o)

/-- One full pass over the outlet list.  The pass fuel
`outlets.length + net.length + 1` dominates the length the list can reach (every
append is guarded by a membership test against the current list, so at most one
append per distinct comid of the network), so iteration always ends by running off
the end of the list, exactly as in the source. -/
def subdividePass [LinearOrder α] [Sub α] (net : List (Flowline α)) (drainmax : α)
    (inlets : List Nat) (outlets : List Nat) : List Nat :=
  passAux net drainmax inlets (outlets.length + net.length + 1) 0 outlets

/-- Embedding of the fixed-point loop (delineators.py lines 1062-1121):
`n = -1`
`while len(outlets) != n:`
`    n = len(outlets)`
`    for outlet in outlets: ...`
The loop runs passes until a pass leaves the length unchanged and returns the
outlet list of that final pass; `none` reports exhausted fuel. -/
def subdivideLoop [LinearOrder α] [Sub α] (net : List (Flowline α)) (drainmax : α)
    (inlets : List Nat) : Nat → List Nat → Option (List Nat)
  | 0, _ => none
  | fuel + 1, outlets =>
    let next := subdividePass net drainmax inlets outlets
    if next.length = outlets.length then some next
    else subdivideLoop net drainmax inlets fuel next

/-- The linear five-node chain of the spec's synthetic test, in upstream-to-
downstream order with cumulative areas 10, 20, 30, 100, 100 km².  Comid `100 + i`
carries hydrologic sequence `i`; node 105 is the watershed outlet. -/
def chainNet : List (Flowline ℤ) :=
  [Flowline.mk 101 1 0 2 10,
   Flowline.mk 102 2 1 3 20,
   Flowline.mk 103 3 2 4 30,
   Flowline.mk 104 4 3 5 100,
   Flowline.mk 105 5 4 0 100]

/-! ### Subbasin assembly of `make_subbasin_outlets`

Embedding of delineators.py lines 1123-1149: the subbasin dictionary is seeded
with one singleton member list per outlet, the parallel-delta records sharing the
terminal outlet's `down` are appended to the terminal subbasin, and each
subbasin's member list is closed upstream level by level, stopping at outlets. -/

/-- The key list of the Python dict comprehension
`subbasins = {outlet: [outlet] for outlet in outlets}`: duplicates collapse onto
their first occurrence. -/
def pyDedup (l : List Nat) : List Nat :=
  l.foldl (fun acc x => if x ∈ acc then acc else acc ++ [x]) []

/-- One level of the flood fill (delineators.py lines 1144-1149): the records
whose `down` is the hydrologic sequence of a member added in the previous level
and whose comid is not an outlet, in record order
(`for comid in hydroseqs: if flowlines[hydroseqs[comid]].down in last and comid`
`not in outlets`; with distinct comids, which the dictionary construction
presumes, this scans exactly the records in insertion order). -/
def floodStep (net : List (Flowline α)) (outlets : List Nat) (cur : List Nat) :
    List (Flowline α) :=
  net.filter (fun f => decide (f.down ∈ cur) && !decide (f.comid ∈ outlets))

/-- The flood fill loop `while len(current) > 0:` of delineators.py lines
1140-1149: `mem` is the member list built so far, `cur` the hydrologic sequences
of the members added by the previous level; each level appends the comids of
`floodStep` and continues with their hydrologic sequences. -/
def floodAux (net : List (Flowline α)) (outlets : List Nat) :
    Nat → List Nat → List Nat → List Nat
  | 0, mem, _ => mem
  | fuel + 1, mem, cur =>
    if cur.isEmpty then mem
    else
      let step := floodStep net outlets cur
      floodAux net outlets fuel (mem ++ step.map (·.comid)) (step.map (·.hydroseq))

/-- `downhydroseq = flowlines[hydroseqs[last_comid]].down`
(delineators.py line 1129). -/
def downhydroseqOf (net : List (Flowline α)) (last_comid : Nat) : Option Nat :=
  (findByComid net last_comid).map (·.down)

/-- The parallel-delta members merged into the terminal subbasin
(delineators.py lines 1131-1134): the comids of records sharing the terminal
outlet's `down` that are not themselves outlets. -/
def parallelExtras (net : List (Flowline α)) (outlets : List Nat) (dhs : Nat) :
    List Nat :=
  (net.filter (fun f => f.down == dhs && !decide (f.comid ∈ outlets))).map
    (·.comid)

/-- Embedding of the subbasin assembly (delineators.py lines 1123-1149): one
entry per distinct outlet, the terminal subbasin seeded with the parallel-delta
comids as well, each member list closed upstream by `floodAux` (stopping at other
outlets).  The seed hydrologic sequences come from `hydroseqs[outlet]`; a comid
missing from the network would raise KeyError in the source and is skipped here.
The flood fuel `net.length + 1` always reaches the empty level. -/
def make_subbasins (net : List (Flowline α)) (outlets : List Nat)
    (last_comid : Nat) : List (Nat × List Nat) :=
  let extras :=
    match downhydroseqOf net last_comid with
    | some dhs => parallelExtras net outlets dhs
    | none => []
  (pyDedup outlets).map (fun k =>
    let seed := if k = last_comid then k :: extras else [k]
    let cur := seed.filterMap (hydroseqOf net)
    (k, floodAux net outlets (net.length + 1) seed cur))

/-- Proof device for the flood fill: `atLevelB net outlets seedH ℓ f` holds when
record `f` is reached by the flood from the seed hydrologic sequences `seedH` in
exactly `ℓ` levels: at level 0 the seeds themselves, at level `ℓ + 1` the
non-outlet records whose `down` is the hydrologic sequence of some record of
level `ℓ`. -/
def atLevelB (net : List (Flowline α)) (outlets seedH : List Nat) :
    Nat → Flowline α → Bool
  | 0, f => decide (f.hydroseq ∈ seedH)
  | ℓ + 1, f =>
    !decide (f.comid ∈ outlets) &&
    net.any (fun w => w.hydroseq == f.down && atLevelB net outlets seedH ℓ w)

/-- The records of the network at flood level `ℓ`, in record order. -/
def levelNodes (net : List (Flowline α)) (outlets seedH : List Nat) (ℓ : Nat) :
    List (Flowline α) :=
  net.filter (atLevelB net outlets seedH ℓ)

/-- The members the flood fill appends after level `ℓ`: level by level, the
comids of each following level while levels stay nonempty. -/
def floodTail (net : List (Flowline α)) (outlets seedH : List Nat) :
    Nat → Nat → List Nat
  | 0, _ => []
  | fuel + 1, ℓ =>
    if (levelNodes net outlets seedH ℓ).isEmpty then []
    else
      (levelNodes net outlets seedH (ℓ + 1)).map (·.comid) ++
        floodTail net outlets seedH fuel (ℓ + 1)

/-! ### Gage outlet selection in `make_subbasin_outlets` -/

/-- Python runtime errors relevant to the embedded code paths: `KeyError` from a
failed dictionary lookup, `TypeError` from calling builtin `all` with four
arguments, `NameError` from evaluating an unresolved bare name. -/
inductive PyErr where
  | keyError
  | typeError
  | nameError
  deriving DecidableEq, Repr

/-- Embedding of the year check of the gage loop (delineators.py lines 935-944):
`first_criteria, last_criteria = years`
`year_criteria = (first_gage <= last_criteria or last_gage >= first_criteria)`
with `year_criteria = True` when no year range is supplied.  Note the source uses
`or`, not `and`. -/
def gage_year_criteria (years : Option (Nat × Nat)) (first_gage last_gage : Nat) :
    Bool :=
  match years with
  | some (first_criteria, last_criteria) =>
    decide (first_gage ≤ last_criteria) || decide (last_gage ≥ first_criteria)
  | none => true

/-- Embedding of the per-gage body of the gage loop of `make_subbasin_outlets`
(delineators.py lines 927-961), evaluated in source order for one gage record
(`comid` is the nearest-flowline match, `day1`/`dayn` the first years of the
record period):

* `data_criteria = (comid is not None)`;
* `year_criteria` as in `gage_year_criteria`;
* `watershed_criteria = (flowlines[hydroseqs[comid]].up in flowlines and`
  `record[HUC8_index] == HUC8)`: the lookup `hydroseqs[comid]` raises KeyError
  when `comid` is `None` or unknown; when the `up in flowlines` conjunct is true,
  evaluating the right conjunct raises NameError because `HUC8` is not a
  parameter of `make_subbasin_outlets` and is bound nowhere in its scope;
* `existing = comid not in outlets`;
* `all(data_criteria, year_criteria, watershed_criteria, existing)` raises
  TypeError: builtin `all` takes one iterable, not four booleans.

`Except.ok b` would mean the criteria evaluated to `b` without raising; no path
returns it.  (The gage branch in fact dies even earlier: its first statement,
line 907, calls `find_flowlines` as a bare name, but `find_flowlines` is a method
of the class, another NameError.) -/
def gage_outlet_step {α : Type} (net : List (Flowline α))
    (years : Option (Nat × Nat)) (outlets : List Nat) (comid : Option Nat)
    (day1 dayn : Nat) : Except PyErr Bool :=
  let _data_criteria := comid.isSome
  let _year_criteria := gage_year_criteria years day1 dayn
  match comid with
  | none => Except.error PyErr.keyError
  | some c =>
    match findByComid net c with
    | none => Except.error PyErr.keyError
    | some fl =>
      if net.any (fun w => w.hydroseq == fl.up) then
        Except.error PyErr.nameError
      else
        let _watershed_criteria := false
        let _existing := decide (c ∉ outlets)
        Except.error PyErr.typeError

/-! ### `closest_index` -/

/-- A shapefile bounding box `[xmin, ymin, xmax, ymax]`. -/
structure BBox (α : Type) where
  xmin : α
  ymin : α
  xmax : α
  ymax : α
  deriving DecidableEq, Repr

/-- A shapefile shape as `closest_index` consumes it: its bounding box and its
vertex list. -/
structure PyShape (α : Type) where
  bbox : BBox α
  points : List (α × α)
  deriving DecidableEq, Repr

/-- First scan of `closest_index` (delineators.py lines 54-63): the indices whose
bounding box strictly contains the point, paired with their shapes, in scan
order. -/
def strictMatches {α : Type} [LinearOrder α] (x y : α)
    (shapes : List (PyShape α)) : List (Nat × PyShape α) :=
  shapes.enum.filter (fun s =>
    decide (s.2.bbox.xmin < x) && decide (x < s.2.bbox.xmax) &&
    decide (s.2.bbox.ymin < y) && decide (y < s.2.bbox.ymax))

/-- Fallback scan of `closest_index` (delineators.py lines 70-82): every bounding
box is expanded by its own width and height on each side before the containment
test. -/
def expandedMatches {α : Type} [LinearOrder α] [Sub α] [Add α] (x y : α)
    (shapes : List (PyShape α)) : List (Nat × PyShape α) :=
  shapes.enum.filter (fun s =>
    decide (s.2.bbox.xmin - (s.2.bbox.xmax - s.2.bbox.xmin) < x) &&
    decide (x < s.2.bbox.xmax + (s.2.bbox.xmax - s.2.bbox.xmin)) &&
    decide (s.2.bbox.ymin - (s.2.bbox.ymax - s.2.bbox.ymin) < y) &&
    decide (y < s.2.bbox.ymax + (s.2.bbox.ymax - s.2.bbox.ymin)))

/-- The per-candidate distance of the multiple-match branch of `closest_index`
(delineators.py lines 92-101):
`distance = max(bbox[2] - bbox[0], bbox[3] - bbox[1])`
`for p in points:`
`    distance = min(distance, get_distance(p, [x, y]))`
`get_distance` is referenced as a bare name; the function of that name is a method
of the class and nothing binds it in scope, so the first loop iteration raises
NameError.  With an empty vertex list the loop body never runs and the bounding
box span is returned. -/
def shapeDistance {α : Type} [LinearOrder α] [Sub α] (s : PyShape α) :
    Except PyErr α :=
  s.points.foldlM (fun _d _p => (Except.error PyErr.nameError : Except PyErr α))
    (max (s.bbox.xmax - s.bbox.xmin) (s.bbox.ymax - s.bbox.ymin))

/-- Embedding of `closest_index` (delineators.py lines 45-108): strict bounding
box scan; on zero matches, the expanded rescan; on more than one match, the
candidate of minimal `shapeDistance` (first minimum wins, mirroring
`distances.index(min(distances))`); finally `None` exactly when no single match
remains. -/
def closest_index {α : Type} [LinearOrder α] [Sub α] [Add α] (point : α × α)
    (shapes : List (PyShape α)) : Except PyErr (Option Nat) :=
  let x := point.1
  let y := point.2
  let first := strictMatches x y shapes
  let found := if first.isEmpty then expandedMatches x y shapes else first
  if 1 < found.length then
    match found.mapM (fun s => shapeDistance s.2) with
    | Except.error e => Except.error e
    | Except.ok distances =>
      Except.ok ((found[argminIdx distances]?).map (·.1))
  else
    Except.ok ((found[0]?).map (·.1))

end PyHSPF

namespace PyHSPF

/-! ## Claims C6, C7, C9, C10 -/

/-! ### Lemmas on the subdivision loop

The outlet list only ever grows by appending comids of the network that are not
yet present; the loop result is a fixed point of the pass. -/

theorem foldl_outlets_ext {β : Type} (comidOf : β → Nat) (tribs : List β) :
    ∀ acc : List Nat,
      ∃ ext,
        tribs.foldl
          (fun acc f => if comidOf f ∈ acc then acc else acc ++ [comidOf f]) acc =
          acc ++ ext ∧
        (∀ c ∈ ext, c ∈ tribs.map comidOf) ∧
        (acc.Nodup → (acc ++ ext).Nodup) := by
  induction tribs with
  | nil => intro acc; exact ⟨[], by simp⟩
  | cons f rest ih =>
    intro acc
    by_cases hmem : comidOf f ∈ acc
    · obtain ⟨ext, heq, hsub, hnd⟩ := ih acc
      refine ⟨ext, ?_, ?_, hnd⟩
      · simpa [List.foldl_cons, if_pos hmem] using heq
      · intro c hc
        have := hsub c hc
        simp only [List.map_cons]
        exact List.mem_cons_of_mem _ this
    · obtain ⟨ext, heq, hsub, hnd⟩ := ih (acc ++ [comidOf f])
      refine ⟨comidOf f :: ext, ?_, ?_, ?_⟩
      · simp only [List.foldl_cons, if_neg hmem]
        rw [heq]
        simp
      · intro c hc
        rcases List.mem_cons.mp hc with h | h
        · simp [h]
        · simp only [List.map_cons]
          exact List.mem_cons_of_mem _ (hsub c h)
      · intro hacc
        have h1 : (acc ++ [comidOf f]).Nodup := by
          simp [List.nodup_append, hacc, hmem]
        have := hnd h1
        simpa using this

theorem walkAux_ext {α : Type} [LinearOrder α] [Sub α] (net : List (Flowline α))
    (drainmax : α) (bnd : List Nat) (dr : α) :
    ∀ (fuel : Nat) (fl : Flowline α) (l : List Nat),
      ∃ ext,
        walkAux net drainmax bnd dr fuel fl l = l ++ ext ∧
        (∀ c ∈ ext, c ∈ net.map (·.comid)) ∧
        (l.Nodup → (l ++ ext).Nodup) := by
  intro fuel
  induction fuel with
  | zero => intro fl l; exact ⟨[], by simp [walkAux]⟩
  | succ fuel ih =>
    intro fl l
    rw [walkAux]
    by_cases hb : fl.up ∈ bnd
    · exact ⟨[], by simp [hb]⟩
    rw [if_neg hb]
    cases hfind : findByHydroseq net fl.up with
    | none => exact ⟨[], by simp⟩
    | some major =>
      by_cases hcond : ((net.filter (fun f => f.down == fl.hydroseq)).any
          (fun f => decide (f.comid ∈ l)) ||
          decide (drainmax < fl.divarea - major.divarea)) = true
      · simp only [hcond, if_true]
        obtain ⟨ext, heq, hsub, hnd⟩ :=
          foldl_outlets_ext (fun f : Flowline α => f.comid)
            (net.filter (fun f => f.down == fl.hydroseq)) l
        refine ⟨ext, heq, ?_, hnd⟩
        intro c hc
        obtain hc' := hsub c hc
        rw [List.mem_map] at hc' ⊢
        obtain ⟨f, hf, hfc⟩ := hc'
        exact ⟨f, List.mem_of_mem_filter hf, hfc⟩
      · simp only [hcond, if_false, Bool.false_eq_true]
        by_cases hth : drainmax < dr - fl.divarea
        · rw [if_pos hth]
          cases hdfind : findByHydroseq net fl.down with
          | none => exact ⟨[], by simp⟩
          | some downfl =>
            by_cases hdm : downfl.comid ∈ l
            · exact ⟨[], by simp [hdm]⟩
            · refine ⟨[downfl.comid], by simp [hdm], ?_, ?_⟩
              · intro c hc
                rw [List.mem_singleton] at hc
                subst hc
                rw [List.mem_map]
                exact ⟨downfl, List.mem_of_find?_eq_some hdfind, rfl⟩
              · intro hl
                simp [List.nodup_append, hl, hdm]
        · rw [if_neg hth]
          exact ih major l

theorem walkOne_ext {α : Type} [LinearOrder α] [Sub α] (net : List (Flowline α))
    (drainmax : α) (inlets : List Nat) (l : List Nat) (o : Nat) :
    ∃ ext,
      walkOne net drainmax inlets l o = l ++ ext ∧
      (∀ c ∈ ext, c ∈ net.map (·.comid)) ∧
      (l.Nodup → (l ++ ext).Nodup) := by
  rw [walkOne]
  cases hfind : findByComid net o with
  | none => exact ⟨[], by simp⟩
  | some fl => exact walkAux_ext net drainmax _ _ _ fl l

theorem passAux_ext {α : Type} [LinearOrder α] [Sub α] (net : List (Flowline α))
    (drainmax : α) (inlets : List Nat) :
    ∀ (fuel i : Nat) (l : List Nat),
      ∃ ext,
        passAux net drainmax inlets fuel i l = l ++ ext ∧
        (∀ c ∈ ext, c ∈ net.map (·.comid)) ∧
        (l.Nodup → (l ++ ext).Nodup) := by
  intro fuel
  induction fuel with
  | zero => intro i l; exact ⟨[], by simp [passAux]⟩
  | succ fuel ih =>
    intro i l
    rw [passAux]
    cases hget : l[i]? with
    | none => exact ⟨[], by simp⟩
    | some o =>
      obtain ⟨e1, he1, hs1, hn1⟩ := walkOne_ext net drainmax inlets l o
      obtain ⟨e2, he2, hs2, hn2⟩ := ih (i + 1) (walkOne net drainmax inlets l o)
      refine ⟨e1 ++ e2, ?_, ?_, ?_⟩
      · show passAux net drainmax inlets fuel (i + 1) (walkOne net drainmax inlets l o) =
          l ++ (e1 ++ e2)
        rw [he2, he1, List.append_assoc]
      · intro c hc
        rcases List.mem_append.mp hc with h | h
        · exact hs1 c h
        · exact hs2 c h
      · intro hl
        have := hn2 (by rw [he1]; exact hn1 hl)
        rw [he1, List.append_assoc] at this
        exact this

theorem subdividePass_ext {α : Type} [LinearOrder α] [Sub α]
    (net : List (Flowline α)) (drainmax : α) (inlets : List Nat) (l : List Nat) :
    ∃ ext,
      subdividePass net drainmax inlets l = l ++ ext ∧
      (∀ c ∈ ext, c ∈ net.map (·.comid)) ∧
      (l.Nodup → (l ++ ext).Nodup) :=
  passAux_ext net drainmax inlets _ 0 l

theorem subdivideLoop_fix {α : Type} [LinearOrder α] [Sub α]
    (net : List (Flowline α)) (drainmax : α) (inlets : List Nat) :
    ∀ (fuel : Nat) (l r : List Nat),
      subdivideLoop net drainmax inlets fuel l = some r →
      subdividePass net drainmax inlets r = r := by
  intro fuel
  induction fuel with
  | zero => intro l r h; simp [subdivideLoop] at h
  | succ fuel ih =>
    intro l r h
    rw [subdivideLoop] at h
    by_cases hlen :
        (subdividePass net drainmax inlets l).length = l.length
    · rw [if_pos hlen] at h
      obtain ⟨ext, heq, -, -⟩ := subdividePass_ext net drainmax inlets l
      have hext : ext = [] := by
        have := hlen
        rw [heq, List.length_append] at this
        have : ext.length = 0 := by omega
        exact List.eq_nil_of_length_eq_zero this
      have hfix : subdividePass net drainmax inlets l = l := by
        rw [heq, hext, List.append_nil]
      have hr : r = l := by
        have := h
        rw [hfix] at this
        exact (Option.some_injective _ this).symm
      rw [hr, hfix]
    · rw [if_neg hlen] at h
      exact ih _ r h

theorem nodup_subset_length_le (l m : List Nat) (hnd : l.Nodup)
    (hsub : ∀ c ∈ l, c ∈ m) : l.length ≤ m.length := by
  have h1 : l.toFinset.card = l.length := List.toFinset_card_of_nodup hnd
  have h2 : l.toFinset ⊆ m.toFinset := by
    intro x hx
    rw [List.mem_toFinset] at hx ⊢
    exact hsub x hx
  calc l.length = l.toFinset.card := h1.symm
    _ ≤ m.toFinset.card := Finset.card_le_card h2
    _ ≤ m.length := List.toFinset_card_le m

theorem subdivideLoop_total {α : Type} [LinearOrder α] [Sub α]
    (net : List (Flowline α)) (drainmax : α) (inlets : List Nat) :
    ∀ (fuel : Nat) (l : List Nat), l.Nodup → (∀ c ∈ l, c ∈ net.map (·.comid)) →
      net.length + 1 ≤ fuel + l.length →
      ∃ r, subdivideLoop net drainmax inlets fuel l = some r ∧
        (∃ ext, r = l ++ ext) ∧ r.Nodup ∧ (∀ c ∈ r, c ∈ net.map (·.comid)) := by
  intro fuel
  induction fuel with
  | zero =>
    intro l hnd hsub hlen
    exfalso
    have hle : l.length ≤ net.length := by
      have := nodup_subset_length_le l (net.map (·.comid)) hnd hsub
      simpa using this
    omega
  | succ fuel ih =>
    intro l hnd hsub hlen
    obtain ⟨ext, heq, hexts, hextn⟩ := subdividePass_ext net drainmax inlets l
    by_cases hnil : ext = []
    · have hfix : subdividePass net drainmax inlets l = l := by
        rw [heq, hnil, List.append_nil]
      refine ⟨l, ?_, ⟨[], by simp⟩, hnd, hsub⟩
      rw [subdivideLoop, hfix, if_pos rfl]
    · have hpos : 0 < ext.length := List.length_pos.mpr hnil
      have hlen' : (subdividePass net drainmax inlets l).length ≠ l.length := by
        rw [heq, List.length_append]
        omega
      have hnext_nd : (l ++ ext).Nodup := hextn hnd
      have hnext_sub : ∀ c ∈ l ++ ext, c ∈ net.map (·.comid) := by
        intro c hc
        rcases List.mem_append.mp hc with h | h
        · exact hsub c h
        · exact hexts c h
      have hnext_len : net.length + 1 ≤ fuel + (l ++ ext).length := by
        rw [List.length_append]
        omega
      obtain ⟨r, hr, ⟨ext2, hre⟩, hrnd, hrsub⟩ :=
        ih (l ++ ext) hnext_nd hnext_sub hnext_len
      refine ⟨r, ?_, ⟨ext ++ ext2, by rw [hre, List.append_assoc]⟩, hrnd, hrsub⟩
      rw [subdivideLoop, heq, if_neg (by rw [← heq]; exact hlen')]
      exact hr

/-! ### Lemmas on the subbasin assembly flood fill

The flood fill from a seed outlet is characterized level by level through
`atLevelB`: a comid enters a subbasin exactly when its record is reached from the
seed record along the reverse `down` relation through non-outlet records.  The
level of a record under a fixed seed is unique, and distinct seeds can only reach
a common record if they are the same outlet. -/

theorem bool_eq_of_iff {x y : Bool} (h : x = true ↔ y = true) : x = y := by
  cases x <;> cases y <;> simp_all

theorem mem_pyDedup_aux (l : List Nat) : ∀ (acc : List Nat) (x : Nat),
    x ∈ l.foldl (fun acc y => if y ∈ acc then acc else acc ++ [y]) acc ↔
      x ∈ acc ∨ x ∈ l := by
  induction l with
  | nil => intro acc x; simp
  | cons y rest ih =>
    intro acc x
    rw [List.foldl_cons]
    by_cases hy : y ∈ acc
    · rw [if_pos hy, ih]
      constructor
      · rintro (h | h)
        · exact Or.inl h
        · exact Or.inr (List.mem_cons_of_mem _ h)
      · rintro (h | h)
        · exact Or.inl h
        · rcases List.mem_cons.mp h with h | h
          · subst h; exact Or.inl hy
          · exact Or.inr h
    · rw [if_neg hy, ih]
      simp only [List.mem_append, List.mem_singleton, List.mem_cons]
      tauto

theorem mem_pyDedup (l : List Nat) (x : Nat) : x ∈ pyDedup l ↔ x ∈ l := by
  rw [pyDedup, mem_pyDedup_aux]
  simp

theorem findByComid_comid {α : Type} {net : List (Flowline α)} {k : Nat}
    {g : Flowline α} (h : findByComid net k = some g) : g ∈ net ∧ g.comid = k := by
  refine ⟨List.mem_of_find?_eq_some h, ?_⟩
  have := List.find?_some h
  simpa using this

theorem findByComid_self {α : Type} {net : List (Flowline α)}
    (hcom : (net.map (·.comid)).Nodup) {f : Flowline α} (hf : f ∈ net) :
    findByComid net f.comid = some f := by
  have hex : (findByComid net f.comid).isSome :=
    List.find?_isSome.mpr ⟨f, hf, by simp⟩
  obtain ⟨g, hg⟩ := Option.isSome_iff_exists.mp hex
  obtain ⟨hgmem, hgc⟩ := findByComid_comid hg
  have hgf : g = f := List.inj_on_of_nodup_map hcom hgmem hf hgc
  rw [hg, hgf]

theorem atLevelB_zero {α : Type} {net : List (Flowline α)} {outlets seedH : List Nat}
    {f : Flowline α} :
    atLevelB net outlets seedH 0 f = true ↔ f.hydroseq ∈ seedH := by
  simp [atLevelB]

theorem atLevelB_succ {α : Type} {net : List (Flowline α)} {outlets seedH : List Nat}
    {ℓ : Nat} {f : Flowline α} :
    atLevelB net outlets seedH (ℓ + 1) f = true ↔
      f.comid ∉ outlets ∧
      ∃ w ∈ net, w.hydroseq = f.down ∧ atLevelB net outlets seedH ℓ w = true := by
  rw [atLevelB]
  simp only [Bool.and_eq_true, Bool.not_eq_true', decide_eq_false_iff_not,
    List.any_eq_true, beq_iff_eq]

theorem floodStep_levels {α : Type} (net : List (Flowline α))
    (outlets seedH : List Nat) (ℓ : Nat) :
    floodStep net outlets ((levelNodes net outlets seedH ℓ).map (·.hydroseq)) =
      levelNodes net outlets seedH (ℓ + 1) := by
  rw [floodStep, levelNodes]
  apply List.filter_congr
  intro f hf
  apply bool_eq_of_iff
  rw [atLevelB_succ]
  simp only [Bool.and_eq_true, decide_eq_true_eq, Bool.not_eq_true',
    decide_eq_false_iff_not, List.mem_map, levelNodes, List.mem_filter]
  tauto

theorem floodAux_levels {α : Type} (net : List (Flowline α))
    (outlets seedH : List Nat) :
    ∀ (fuel ℓ : Nat) (mem : List Nat),
      floodAux net outlets fuel mem
        ((levelNodes net outlets seedH ℓ).map (·.hydroseq)) =
        mem ++ floodTail net outlets seedH fuel ℓ := by
  intro fuel
  induction fuel with
  | zero => intro ℓ mem; simp [floodAux, floodTail]
  | succ fuel ih =>
    intro ℓ mem
    rw [floodAux, floodTail]
    by_cases hemp : (levelNodes net outlets seedH ℓ).isEmpty = true
    · have hm : ((levelNodes net outlets seedH ℓ).map (·.hydroseq)).isEmpty = true := by
        rw [List.isEmpty_iff] at hemp ⊢
        rw [hemp]
        rfl
      rw [if_pos hm, if_pos hemp, List.append_nil]
    · have hm : ¬((levelNodes net outlets seedH ℓ).map (·.hydroseq)).isEmpty = true := by
        intro hcon
        apply hemp
        rw [List.isEmpty_iff] at hcon ⊢
        exact List.map_eq_nil_iff.mp hcon
      rw [if_neg hm, if_neg hemp]
      rw [floodStep_levels net outlets seedH ℓ]
      rw [ih (ℓ + 1) (mem ++ (levelNodes net outlets seedH (ℓ + 1)).map (·.comid))]
      rw [List.append_assoc]

theorem atLevel_level_unique {α : Type} (net : List (Flowline α))
    (outlets seedH : List Nat) (hseq : (net.map (·.hydroseq)).Nodup)
    (hseed : ∀ g ∈ net, g.hydroseq ∈ seedH → g.comid ∈ outlets) :
    ∀ (j1 j2 : Nat) (f : Flowline α), f ∈ net →
      atLevelB net outlets seedH j1 f = true →
      atLevelB net outlets seedH j2 f = true → j1 = j2 := by
  intro j1
  induction j1 with
  | zero =>
    intro j2 f hf h1 h2
    cases j2 with
    | zero => rfl
    | succ j2 =>
      exact absurd (hseed f hf (atLevelB_zero.mp h1)) (atLevelB_succ.mp h2).1
  | succ j1 ih =>
    intro j2 f hf h1 h2
    cases j2 with
    | zero =>
      exact absurd (hseed f hf (atLevelB_zero.mp h2)) (atLevelB_succ.mp h1).1
    | succ j2 =>
      obtain ⟨-, w1, hw1m, hw1s, hw1l⟩ := atLevelB_succ.mp h1
      obtain ⟨-, w2, hw2m, hw2s, hw2l⟩ := atLevelB_succ.mp h2
      have hw : w1 = w2 :=
        List.inj_on_of_nodup_map hseq hw1m hw2m (by rw [hw1s, hw2s])
      subst hw
      have := ih j2 w1 hw1m hw1l hw2l
      omega

theorem exists_atLevel_of_le {α : Type} (net : List (Flowline α))
    (outlets seedH : List Nat) :
    ∀ (j : Nat) (f : Flowline α), f ∈ net →
      atLevelB net outlets seedH j f = true →
      ∀ i ≤ j, ∃ g ∈ net, atLevelB net outlets seedH i g = true := by
  intro j
  induction j with
  | zero =>
    intro f hf h i hi
    have : i = 0 := Nat.le_zero.mp hi
    subst this
    exact ⟨f, hf, h⟩
  | succ j ih =>
    intro f hf h i hi
    rcases Nat.eq_or_lt_of_le hi with heq | hlt
    · subst heq; exact ⟨f, hf, h⟩
    · obtain ⟨-, w, hwm, -, hwl⟩ := atLevelB_succ.mp h
      exact ih w hwm hwl i (by omega)

theorem atLevel_lt_length {α : Type} (net : List (Flowline α))
    (outlets seedH : List Nat) (hseq : (net.map (·.hydroseq)).Nodup)
    (hseed : ∀ g ∈ net, g.hydroseq ∈ seedH → g.comid ∈ outlets)
    (j : Nat) (f : Flowline α) (hf : f ∈ net)
    (hat : atLevelB net outlets seedH j f = true) : j < net.length := by
  by_contra hge
  push_neg at hge
  have hch : ∀ i : Fin (j + 1),
      ∃ g, g ∈ net ∧ atLevelB net outlets seedH i.val g = true := by
    intro i
    obtain ⟨g, hg, hgat⟩ :=
      exists_atLevel_of_le net outlets seedH j f hf hat i.val (by omega)
    exact ⟨g, hg, hgat⟩
  choose g hgmem hgat using hch
  have hmaps : ∀ i ∈ (Finset.univ : Finset (Fin (j + 1))),
      (g i).hydroseq ∈ (net.map (·.hydroseq)).toFinset := by
    intro i _
    rw [List.mem_toFinset, List.mem_map]
    exact ⟨g i, hgmem i, rfl⟩
  have hinjOn : Set.InjOn (fun i : Fin (j + 1) => (g i).hydroseq)
      ↑(Finset.univ : Finset (Fin (j + 1))) := by
    intro i1 _ i2 _ heq
    have hgg : g i1 = g i2 :=
      List.inj_on_of_nodup_map hseq (hgmem i1) (hgmem i2) heq
    have h12 : (i1 : Nat) = (i2 : Nat) :=
      atLevel_level_unique net outlets seedH hseq hseed i1 i2 (g i1) (hgmem i1)
        (hgat i1) (by rw [hgg]; exact hgat i2)
    exact Fin.ext h12
  have hcard := Finset.card_le_card_of_injOn _ hmaps hinjOn
  rw [Finset.card_univ, Fintype.card_fin] at hcard
  have hlen := List.toFinset_card_le (net.map (·.hydroseq))
  rw [List.length_map] at hlen
  omega

theorem mem_floodTail {α : Type} (net : List (Flowline α))
    (outlets seedH : List Nat) :
    ∀ (fuel ℓ : Nat) (c : Nat), c ∈ floodTail net outlets seedH fuel ℓ →
      ∃ j, ℓ < j ∧ ∃ f ∈ net, atLevelB net outlets seedH j f = true ∧
        f.comid = c := by
  intro fuel
  induction fuel with
  | zero => intro ℓ c h; simp [floodTail] at h
  | succ fuel ih =>
    intro ℓ c h
    rw [floodTail] at h
    by_cases hemp : (levelNodes net outlets seedH ℓ).isEmpty = true
    · rw [if_pos hemp] at h; simp at h
    · rw [if_neg hemp] at h
      rcases List.mem_append.mp h with h | h
      · rw [List.mem_map] at h
        obtain ⟨f, hf, hfc⟩ := h
        rw [levelNodes, List.mem_filter] at hf
        exact ⟨ℓ + 1, by omega, f, hf.1, hf.2, hfc⟩
      · obtain ⟨j, hj, hrest⟩ := ih (ℓ + 1) c h
        exact ⟨j, by omega, hrest⟩

theorem floodTail_complete {α : Type} (net : List (Flowline α))
    (outlets seedH : List Nat) :
    ∀ (fuel ℓ j : Nat) (f : Flowline α), f ∈ net →
      atLevelB net outlets seedH j f = true → ℓ < j → j ≤ ℓ + fuel →
      f.comid ∈ floodTail net outlets seedH fuel ℓ := by
  intro fuel
  induction fuel with
  | zero => intro ℓ j f _ _ h1 h2; omega
  | succ fuel ih =>
    intro ℓ j f hf hat h1 h2
    rw [floodTail]
    have hne : ¬(levelNodes net outlets seedH ℓ).isEmpty = true := by
      obtain ⟨g, hg, hgat⟩ :=
        exists_atLevel_of_le net outlets seedH j f hf hat ℓ (by omega)
      intro hcon
      rw [List.isEmpty_iff] at hcon
      have hmem : g ∈ levelNodes net outlets seedH ℓ :=
        List.mem_filter.mpr ⟨hg, hgat⟩
      rw [hcon] at hmem
      simp at hmem
    rw [if_neg hne]
    rcases Nat.eq_or_lt_of_le (Nat.succ_le_of_lt h1) with heq | hlt
    · have heq' : ℓ + 1 = j := heq
      apply List.mem_append.mpr
      left
      rw [List.mem_map]
      exact ⟨f, List.mem_filter.mpr ⟨hf, by rw [heq']; exact hat⟩, rfl⟩
    · apply List.mem_append.mpr
      right
      exact ih (ℓ + 1) j f hf hat hlt (by omega)

theorem filter_key_singleton {β : Type} (keyOf : β → Nat) :
    ∀ (l : List β), (l.map keyOf).Nodup → ∀ x ∈ l,
      l.filter (fun f => decide (keyOf f = keyOf x)) = [x] := by
  intro l
  induction l with
  | nil => intro _ x hx; simp at hx
  | cons y rest ih =>
    intro hnd x hx
    rw [List.map_cons, List.nodup_cons] at hnd
    rcases List.mem_cons.mp hx with heq | hmem
    · subst heq
      rw [List.filter_cons, if_pos (by simp)]
      have hrest : rest.filter (fun f => decide (keyOf f = keyOf x)) = [] := by
        apply List.filter_eq_nil_iff.mpr
        intro f hf
        simp only [decide_eq_true_eq]
        intro hkey
        exact hnd.1 (by rw [← hkey]; exact List.mem_map_of_mem _ hf)
      rw [hrest]
    · have hne : ¬(keyOf y = keyOf x) := by
        intro h
        exact hnd.1 (by rw [h]; exact List.mem_map_of_mem _ hmem)
      rw [List.filter_cons, if_neg (by simpa using hne)]
      exact ih hnd.2 x hmem

theorem levelNodes_zero_singleton {α : Type} (net : List (Flowline α))
    (outlets : List Nat) (hseq : (net.map (·.hydroseq)).Nodup)
    {x : Flowline α} (hx : x ∈ net) :
    levelNodes net outlets [x.hydroseq] 0 = [x] := by
  rw [levelNodes]
  have hcg : net.filter (atLevelB net outlets [x.hydroseq] 0) =
      net.filter (fun f => decide (f.hydroseq = x.hydroseq)) := by
    apply List.filter_congr
    intro f _
    apply bool_eq_of_iff
    rw [atLevelB_zero]
    simp
  rw [hcg]
  exact filter_key_singleton (fun f : Flowline α => f.hydroseq) net hseq x hx

theorem members_eq {α : Type} (net : List (Flowline α)) (outlets : List Nat)
    (k : Nat) (hseq : (net.map (·.hydroseq)).Nodup) {nk : Flowline α}
    (hnk : findByComid net k = some nk) :
    floodAux net outlets (net.length + 1) [k] ([k].filterMap (hydroseqOf net)) =
      [k] ++ floodTail net outlets [nk.hydroseq] (net.length + 1) 0 := by
  have hcur : [k].filterMap (hydroseqOf net) = [nk.hydroseq] := by
    simp [hydroseqOf, hnk]
  have hlev0 : (levelNodes net outlets [nk.hydroseq] 0).map (·.hydroseq) =
      [nk.hydroseq] := by
    rw [levelNodes_zero_singleton net outlets hseq (findByComid_comid hnk).1]
    rfl
  rw [hcur, ← hlev0, floodAux_levels net outlets [nk.hydroseq] (net.length + 1) 0,
    hlev0]

theorem mem_members_cases {α : Type} (net : List (Flowline α)) (outlets : List Nat)
    (hseq : (net.map (·.hydroseq)).Nodup) (k c : Nat)
    (hc : c ∈ floodAux net outlets (net.length + 1) [k]
      ([k].filterMap (hydroseqOf net))) :
    c = k ∨ ∃ nk j f, findByComid net k = some nk ∧ f ∈ net ∧ 0 < j ∧
      atLevelB net outlets [nk.hydroseq] j f = true ∧ f.comid = c := by
  cases hnk : findByComid net k with
  | none =>
    left
    have hcur : [k].filterMap (hydroseqOf net) = [] := by
      simp [hydroseqOf, hnk]
    rw [hcur, floodAux] at hc
    simpa using hc
  | some nk =>
    rw [members_eq net outlets k hseq hnk] at hc
    rcases List.mem_append.mp hc with h | h
    · left; simpa using h
    · obtain ⟨j, hj, f, hf, hat, hfc⟩ :=
        mem_floodTail net outlets [nk.hydroseq] (net.length + 1) 0 c h
      exact Or.inr ⟨nk, j, f, rfl, hf, by omega, hat, hfc⟩

theorem atLevel_seed_eq {α : Type} (net : List (Flowline α)) (outlets : List Nat)
    (hseq : (net.map (·.hydroseq)).Nodup) {k1 k2 : Nat} {nk1 nk2 : Flowline α}
    (hnk1 : findByComid net k1 = some nk1) (hnk2 : findByComid net k2 = some nk2)
    (hk1o : k1 ∈ outlets) (hk2o : k2 ∈ outlets) :
    ∀ (j1 j2 : Nat) (f : Flowline α), f ∈ net →
      atLevelB net outlets [nk1.hydroseq] j1 f = true →
      atLevelB net outlets [nk2.hydroseq] j2 f = true → k1 = k2 := by
  intro j1
  induction j1 with
  | zero =>
    intro j2 f hf h1 h2
    have hfs1 : f.hydroseq = nk1.hydroseq := by simpa using atLevelB_zero.mp h1
    have hfn1 : f = nk1 :=
      List.inj_on_of_nodup_map hseq hf (findByComid_comid hnk1).1 hfs1
    cases j2 with
    | zero =>
      have hfs2 : f.hydroseq = nk2.hydroseq := by simpa using atLevelB_zero.mp h2
      have hfn2 : f = nk2 :=
        List.inj_on_of_nodup_map hseq hf (findByComid_comid hnk2).1 hfs2
      rw [← (findByComid_comid hnk1).2, ← (findByComid_comid hnk2).2,
        ← hfn1, ← hfn2]
    | succ j2 =>
      exfalso
      apply (atLevelB_succ.mp h2).1
      rw [hfn1, (findByComid_comid hnk1).2]
      exact hk1o
  | succ j1 ih =>
    intro j2 f hf h1 h2
    cases j2 with
    | zero =>
      exfalso
      have hfs2 : f.hydroseq = nk2.hydroseq := by simpa using atLevelB_zero.mp h2
      have hfn2 : f = nk2 :=
        List.inj_on_of_nodup_map hseq hf (findByComid_comid hnk2).1 hfs2
      apply (atLevelB_succ.mp h1).1
      rw [hfn2, (findByComid_comid hnk2).2]
      exact hk2o
    | succ j2 =>
      obtain ⟨-, w1, hw1m, hw1s, hw1l⟩ := atLevelB_succ.mp h1
      obtain ⟨-, w2, hw2m, hw2s, hw2l⟩ := atLevelB_succ.mp h2
      have hw : w1 = w2 :=
        List.inj_on_of_nodup_map hseq hw1m hw2m (by rw [hw1s, hw2s])
      subst hw
      exact ih j2 w1 hw1m hw1l hw2l

theorem parallelExtras_nil {α : Type} (net : List (Flowline α))
    (outlets : List Nat) (dhs : Nat)
    (h : ∀ f ∈ net, f.down = dhs → f.comid ∈ outlets) :
    parallelExtras net outlets dhs = [] := by
  rw [parallelExtras]
  rw [List.map_eq_nil_iff]
  apply List.filter_eq_nil_iff.mpr
  intro f hf
  simp only [Bool.and_eq_true, beq_iff_eq, Bool.not_eq_true',
    decide_eq_false_iff_not]
  intro hcon
  exact hcon.2 (h f hf hcon.1)

/-- C2 counterexample: on the synthetic chain (cumulative areas 10, 20, 30, 100,
100 km² up-to-down, `drainmax = 25`, initial outlet the terminal node 105) the
subdivision loop of `make_subbasin_outlets` ends with outlets `[105, 103]`: the
only new outlet is 103, the node immediately downstream of the 20→30 jump.  The
node 104 immediately downstream of the 30→100 jump, which the claim requires, is
never added: at node 104 the major-tributary condition
`flowline.divarea - major.divarea > drainmax` (100 - 30 > 25) fires before the
cumulative threshold rule can mark 104, the walk marks tributary 103 and stops. -/
theorem c2_chain_counterexample :
    subdivideLoop chainNet 25 (findInlets chainNet) 10 [105] = some [105, 103] ∧
    (104 : Nat) ∉ [(105 : Nat), 103] := by
  refine ⟨by decide, by decide⟩

/-- C2 amended: the threshold rule fires only at a node where the major-tributary
check does not fire.  Whenever the walk is at a node whose tributaries are not yet
outlets and whose single-step area loss to the major tributary does not exceed
`drainmax`, but the cumulative drop from the outlet to the node exceeds
`drainmax`, the node walked immediately before (the current node's `down`
neighbor) is marked as a new outlet and the walk stops.  In particular, on the
synthetic chain with `drainmax = 25` the only new outlet is node 103 (immediately
downstream of the 20→30 jump), added by the major-tributary area check; node 104
is not an outlet. -/
theorem c2_threshold_rule_amended :
    (∀ (net : List (Flowline ℤ)) (drainmax drain_area : ℤ) (boundaries : List Nat)
       (fuel : Nat) (flowline major downfl : Flowline ℤ) (outlets : List Nat),
       flowline.up ∉ boundaries →
       findByHydroseq net flowline.up = some major →
       (∀ f ∈ net, f.down = flowline.hydroseq → f.comid ∉ outlets) →
       ¬(drainmax < flowline.divarea - major.divarea) →
       drainmax < drain_area - flowline.divarea →
       findByHydroseq net flowline.down = some downfl →
       downfl.comid ∉ outlets →
       walkAux net drainmax boundaries drain_area (fuel + 1) flowline outlets =
         outlets ++ [downfl.comid]) ∧
    subdivideLoop chainNet 25 (findInlets chainNet) 10 [105] = some [105, 103] := by
  constructor
  · intro net drainmax drain_area boundaries fuel flowline major downfl outlets
      hnb hmaj htrib hnomaj hthresh hdown hnew
    rw [walkAux, if_neg hnb, hmaj]
    have hany : (net.filter (fun f => f.down == flowline.hydroseq)).any
        (fun f => decide (f.comid ∈ outlets)) = false := by
      rw [List.any_eq_false]
      intro f hf
      rw [List.mem_filter] at hf
      simp only [decide_eq_true_eq, decide_eq_false_iff_not]
      exact htrib f hf.1 (by simpa using hf.2)
    simp only [hany, Bool.false_or, decide_eq_true_eq]
    rw [if_neg hnomaj, if_pos hthresh, hdown]
    simp only [if_neg hnew]
  · decide

/-- C2 amended witness: the threshold-rule step applies at a concrete chain
(areas 50, 72, 80, 100 down the chain, outlet area 100, `drainmax = 25`): at the
node with area 72 the major loss is 22 ≤ 25 but the cumulative drop is 28 > 25,
so the walk appends the comid 204 of the downstream neighbor and stops. -/
theorem c2_threshold_rule_amended_witness :
    walkAux
      [Flowline.mk 202 1 0 2 (50 : ℤ), Flowline.mk 203 2 1 3 72,
       Flowline.mk 204 3 2 4 80, Flowline.mk 205 4 3 0 100]
      25 [0, 4] 100 5 (Flowline.mk 203 2 1 3 72) [205] = [205, 204] :=
  c2_threshold_rule_amended.1
    [Flowline.mk 202 1 0 2 (50 : ℤ), Flowline.mk 203 2 1 3 72,
     Flowline.mk 204 3 2 4 80, Flowline.mk 205 4 3 0 100]
    25 100 [0, 4] 4 (Flowline.mk 203 2 1 3 72) (Flowline.mk 202 1 0 2 (50 : ℤ))
    (Flowline.mk 204 3 2 4 80) [205]
    (by decide) (by decide) (by decide) (by decide) (by decide) (by decide)
    (by decide)

/-- C3: the drainage-area subdivider is idempotent.  If the fixed-point loop of
`make_subbasin_outlets` returns the outlet list `r`, then running the loop a
second time starting from `r` adds no outlet and returns `r` again for any
nonzero fuel, because `r` is a fixed point of the pass and the loop exits on the
first pass that adds no outlet. -/
theorem c3_subdivider_idempotent {α : Type} [LinearOrder α] [Sub α]
    (net : List (Flowline α)) (drainmax : α) (inlets : List Nat)
    (fuel : Nat) (init r : List Nat)
    (h : subdivideLoop net drainmax inlets fuel init = some r) :
    ∀ fuel2 : Nat, subdivideLoop net drainmax inlets (fuel2 + 1) r = some r := by
  intro fuel2
  have hfix := subdivideLoop_fix net drainmax inlets fuel init r h
  rw [subdivideLoop, hfix, if_pos rfl]

/-- C3 witness: the first run on the synthetic chain ends with `[105, 103]`, and a
second run starting from `[105, 103]` returns `[105, 103]` unchanged. -/
theorem c3_subdivider_idempotent_witness :
    subdivideLoop chainNet 25 (findInlets chainNet) 10 [105, 103] =
      some [105, 103] :=
  c3_subdivider_idempotent chainNet 25 (findInlets chainNet) 10 [105] [105, 103]
    (by decide) 9

/-- C4: the subdivision fixed-point loop terminates on every finite network and
initial outlet list.  The outlet list never shrinks (every pass only appends),
and when the initial outlets are distinct comids of the network, fuel
`net.length + 2` always suffices: the loop returns a final list `r` extending the
initial one, made of distinct network comids, of size bounded by the number of
flowline records, and the loop stops exactly at a pass that adds no outlet
(`r` is a fixed point of the pass). -/
theorem c4_subdivision_terminates {α : Type} [LinearOrder α] [Sub α]
    (net : List (Flowline α)) (drainmax : α) (inlets init : List Nat)
    (hnd : init.Nodup) (hsub : ∀ c ∈ init, c ∈ net.map (·.comid)) :
    (∀ l : List Nat, ∃ ext, subdividePass net drainmax inlets l = l ++ ext) ∧
    ∃ r, subdivideLoop net drainmax inlets (net.length + 2) init = some r ∧
      (∃ ext, r = init ++ ext) ∧ r.Nodup ∧ (∀ c ∈ r, c ∈ net.map (·.comid)) ∧
      r.length ≤ net.length ∧
      subdividePass net drainmax inlets r = r := by
  constructor
  · intro l
    obtain ⟨ext, heq, -, -⟩ := subdividePass_ext net drainmax inlets l
    exact ⟨ext, heq⟩
  · obtain ⟨r, hr, hext, hrnd, hrsub⟩ :=
      subdivideLoop_total net drainmax inlets (net.length + 2) init hnd hsub
        (by omega)
    refine ⟨r, hr, hext, hrnd, hrsub, ?_,
      subdivideLoop_fix net drainmax inlets _ init r hr⟩
    have := nodup_subset_length_le r (net.map (·.comid)) hrnd hrsub
    simpa using this

/-- C4 witness: the termination theorem applies to the synthetic chain with the
terminal outlet 105 as the initial outlet set. -/
theorem c4_subdivision_terminates_witness :
    (∀ l : List Nat,
      ∃ ext, subdividePass chainNet 25 (findInlets chainNet) l = l ++ ext) ∧
    ∃ r, subdivideLoop chainNet 25 (findInlets chainNet) (chainNet.length + 2)
        [105] = some r ∧
      (∃ ext, r = [105] ++ ext) ∧ r.Nodup ∧
      (∀ c ∈ r, c ∈ chainNet.map (·.comid)) ∧
      r.length ≤ chainNet.length ∧
      subdividePass chainNet 25 (findInlets chainNet) r = r :=
  c4_subdivision_terminates chainNet 25 (findInlets chainNet) [105]
    (by decide) (by decide)

/-- C5: the gage criteria of `make_subbasin_outlets` never gate an outlet because
the per-gage evaluation always raises.  For every input the step yields a Python
error, never a boolean: a gage with no nearest-flowline match (or an unknown
comid) raises KeyError at `hydroseqs[comid]` instead of being skipped; a gage
whose matched flowline has its upstream neighbor loaded — i.e. one meeting
criteria (a) and (c) — raises NameError at the unresolved name `HUC8`; any gage
reaching the final test raises TypeError at
`all(data_criteria, year_criteria, watershed_criteria, existing)` since builtin
`all` takes a single iterable.  Moreover the year check uses `or`, so a record
period entirely before a supplied year range still passes it, and criterion (d)
is not enforced even as written. -/
theorem c5_gage_criteria_never_pass :
    (∀ (net : List (Flowline ℤ)) (years : Option (Nat × Nat)) (outlets : List Nat)
       (comid : Option Nat) (day1 dayn : Nat),
       ∃ e, gage_outlet_step net years outlets comid day1 dayn =
         Except.error e) ∧
    gage_outlet_step chainNet (some (1990, 2000)) [105] (some 103) 1992 1998 =
      Except.error PyErr.nameError ∧
    gage_outlet_step chainNet (some (1990, 2000)) [105] none 1992 1998 =
      Except.error PyErr.keyError ∧
    gage_year_criteria (some (2000, 2010)) 1990 1995 = true := by
  refine ⟨?_, rfl, rfl, by decide⟩
  intro net years outlets comid day1 dayn
  rcases comid with - | c
  · exact ⟨PyErr.keyError, rfl⟩
  · rw [gage_outlet_step]
    cases hf : findByComid net c with
    | none => exact ⟨PyErr.keyError, rfl⟩
    | some fl =>
      by_cases hup : net.any (fun w => w.hydroseq == fl.up) = true
      · exact ⟨PyErr.nameError, by simp [hup]⟩
      · exact ⟨PyErr.typeError, by simp [hup]⟩

/-- C6: for two points at geodesic distance below 0.1 km the scalar `get_overland`
does clamp to `(0.1, 1e-5)` (shown at distance 0.01 km for elevation differences
100 and 0), but the vectorized `get_overland_vector` used by `combine_catchments`
does not: at the same distance it returns half the distance (0.005 km) as the
length and the unclamped slope (0.1), because its clamping loop only rebinds its
loop-local variables.  This contradicts the claim for the vectorized form. -/
theorem c6_overland_clamp_divergence :
    get_overland (1/100) 100 = (1/10, 1/100000) ∧
    get_overland (1/100) 0 = (1/10, 1/100000) ∧
    get_overland_vector [1/100] [100] = ([1/200], [1/10]) ∧
    (get_overland_vector [1/100] [100]).1 ≠ [1/10] ∧
    (get_overland_vector [1/100] [100]).2 ≠ [1/100000] := by
  have h1 : get_overland (1/100) 100 = (1/10, 1/100000) := by
    unfold get_overland
    rw [if_neg (by norm_num)]
  have h2 : get_overland (1/100) 0 = (1/10, 1/100000) := by
    unfold get_overland
    rw [if_neg (by norm_num)]
  have h3 : get_overland_vector [1/100] [100] = ([1/200], [1/10]) := by
    unfold get_overland_vector clampLoop
    norm_num
  refine ⟨h1, h2, h3, ?_, ?_⟩
  · rw [h3]
    intro h
    have := List.head_eq_of_cons_eq h
    norm_num at this
  · rw [h3]
    intro h
    have := List.head_eq_of_cons_eq h
    norm_num at this

/-- C7: `combine_catchments` does not pair an interior point with the flowline
point of minimum planar squared distance: it takes the argmin of the dot products
`numpy.dot(flowpoints[:, :2], point[:2])`.  For the interior point `(10, 0)` and
flow points `(10, 1, 0)` and `(-50, 0, 0)` the code selects index 1 (dot product
-500), while the minimum squared distance (1 versus 3600) is at index 0. -/
theorem c7_nearest_point_dot_bug :
    closestFlowpointIdx [((10 : ℤ), 1, 0), (-50, 0, 0)] (10, 0) = 1 ∧
    specNearestIdx [((10 : ℤ), 1, 0), (-50, 0, 0)] (10, 0) = 0 ∧
    closestFlowpointIdx [((10 : ℤ), 1, 0), (-50, 0, 0)] (10, 0) ≠
      specNearestIdx [((10 : ℤ), 1, 0), (-50, 0, 0)] (10, 0) := by
  refine ⟨?_, ?_, ?_⟩ <;> decide

/-- C8: `closest_index` returns `None` (without an exception) exactly on zero
matches after the expanded-bounding-box fallback — shown on an empty candidate
list and on a point outside even the expanded box — and returns the single
match when one strict or one fallback candidate contains the point.  But when
several boxes contain the point the claimed minimum-rule selection never
happens: the branch evaluates `get_distance`, a bare name that is bound nowhere
in scope (the function of that name is a method of the class), so the call
raises NameError instead of returning a choice.  Shapes: both test shapes have
bounding box `[0, 0, 10, 10]` with a vertex list. -/
theorem c8_closest_index_unresolved_match :
    closest_index ((5 : ℤ), 5) ([] : List (PyShape ℤ)) = Except.ok none ∧
    closest_index ((5 : ℤ), 5) [PyShape.mk (BBox.mk 0 0 10 10) [(0, 0)]] =
      Except.ok (some 0) ∧
    closest_index ((15 : ℤ), 5) [PyShape.mk (BBox.mk 0 0 10 10) [(0, 0)]] =
      Except.ok (some 0) ∧
    closest_index ((25 : ℤ), 5) [PyShape.mk (BBox.mk 0 0 10 10) [(0, 0)]] =
      Except.ok none ∧
    closest_index ((5 : ℤ), 5)
      [PyShape.mk (BBox.mk 0 0 10 10) [(0, 0)],
       PyShape.mk (BBox.mk 0 0 10 10) [(10, 10)]] =
      Except.error PyErr.nameError := by
  refine ⟨rfl, rfl, rfl, rfl, rfl⟩

/-- C9: in `build_watershed`'s mass-linkage construction each subbasin is
classified by its uppermost member's `up` reference into exactly one of the three
classes: headwater when `up` is the null sentinel 0, watershed inlet when `up` is
nonzero but absent from the loaded network, and interior (recording the upstream
neighbor's comid) when `up` is present.  The hypothesis that no loaded flowline
carries the sentinel 0 as its hydrologic sequence is the source's sentinel
convention. -/
theorem c9_subbasin_classification (net : List (Flowline ℤ)) (inletFl : Flowline ℤ)
    (h0 : ∀ f ∈ net, f.hydroseq ≠ 0) :
    (inletFl.up = 0 → classify_subbasin net inletFl = SubbasinClass.headwater) ∧
    (inletFl.up ≠ 0 → (∀ f ∈ net, f.hydroseq ≠ inletFl.up) →
      classify_subbasin net inletFl = SubbasinClass.inlet) ∧
    (∀ g ∈ net, g.hydroseq = inletFl.up →
      ∃ g' ∈ net, g'.hydroseq = inletFl.up ∧
        classify_subbasin net inletFl = SubbasinClass.interior g'.comid) := by
  refine ⟨?_, ?_, ?_⟩
  · intro hup
    have hnone : findByHydroseq net inletFl.up = none := by
      apply List.find?_eq_none.mpr
      intro f hf
      simp only [beq_iff_eq]
      intro hcontra
      exact h0 f hf (hcontra.trans hup)
    rw [hup] at hnone
    simp [classify_subbasin, hnone, hup]
  · intro hup habs
    have hnone : findByHydroseq net inletFl.up = none := by
      apply List.find?_eq_none.mpr
      intro f hf
      simp only [beq_iff_eq]
      exact habs f hf
    simp [classify_subbasin, hnone, hup]
  · intro g hg hgup
    have hsome : ∃ g', findByHydroseq net inletFl.up = some g' := by
      have : (findByHydroseq net inletFl.up).isSome = true := by
        apply List.find?_isSome.mpr
        exact ⟨g, hg, by simp [hgup]⟩
      exact Option.isSome_iff_exists.mp this
    obtain ⟨g', hg'⟩ := hsome
    refine ⟨g', List.mem_of_find?_eq_some hg', ?_, ?_⟩
    · have := List.find?_some hg'
      simpa using this
    · simp [classify_subbasin, hg']

/-- C9 witness: on a concrete three-node network, the uppermost member with up
reference 0 is classified as a headwater by the classification theorem. -/
theorem c9_subbasin_classification_witness :
    classify_subbasin
      [Flowline.mk 101 1 0 2 (10 : ℤ), Flowline.mk 102 2 1 3 20,
       Flowline.mk 103 3 2 0 30]
      (Flowline.mk 101 1 0 2 (10 : ℤ)) = SubbasinClass.headwater :=
  (c9_subbasin_classification
    [Flowline.mk 101 1 0 2 (10 : ℤ), Flowline.mk 102 2 1 3 20,
     Flowline.mk 103 3 2 0 30]
    (Flowline.mk 101 1 0 2 (10 : ℤ)) (by decide)).1 (by decide)

/-- C1: the subbasin member lists built by `make_subbasin_outlets` partition the
loaded comids.  For every loaded flowline network — distinct hydrologic sequence
keys and comids (the source's two dictionaries presume both), every `down`
reference either resolving inside the network or equal to the terminal outlet's
`down` sentinel (spec §3: each component ends at the terminal root), downstream
motion decreasing some rank (spec §3: no cycles, cumulative area grows
downstream), and every record sharing the terminal outlet's `down` listed as an
outlet (which lines 987-992 of the source enforce) —
every loaded comid belongs to at least one subbasin member list, and no comid
belongs to the member lists of two distinct subbasins. -/
theorem c1_subbasins_partition {α : Type} (net : List (Flowline α))
    (outlets : List Nat) (last_comid : Nat) (rank : Nat → Nat)
    (hseq : (net.map (·.hydroseq)).Nodup)
    (hcom : (net.map (·.comid)).Nodup)
    (hdown : ∀ f ∈ net, (∃ g ∈ net, g.hydroseq = f.down) ∨
      downhydroseqOf net last_comid = some f.down)
    (h987 : ∀ f ∈ net, downhydroseqOf net last_comid = some f.down →
      f.comid ∈ outlets)
    (hrank : ∀ f ∈ net, ∀ g ∈ net, g.hydroseq = f.down →
      rank g.hydroseq < rank f.hydroseq) :
    (∀ f ∈ net, ∃ p ∈ make_subbasins net outlets last_comid, f.comid ∈ p.2) ∧
    (∀ p ∈ make_subbasins net outlets last_comid,
      ∀ q ∈ make_subbasins net outlets last_comid,
        p.1 ≠ q.1 → ∀ c, c ∈ p.2 → c ∈ q.2 → False) := by
  have hmk : make_subbasins net outlets last_comid =
      (pyDedup outlets).map (fun k =>
        (k, floodAux net outlets (net.length + 1) [k]
          ([k].filterMap (hydroseqOf net)))) := by
    have hextras : (match downhydroseqOf net last_comid with
        | some dhs => parallelExtras net outlets dhs
        | none => ([] : List Nat)) = [] := by
      cases hd : downhydroseqOf net last_comid with
      | none => rfl
      | some dhs =>
        apply parallelExtras_nil
        intro f hf hfd
        exact h987 f hf (by rw [hd, hfd])
    rw [make_subbasins]
    simp only [hextras]
    apply List.map_congr_left
    intro k _
    by_cases hkl : k = last_comid <;> simp [hkl]
  -- every comid reaches the seed of some listed outlet
  have homit : ∀ (n : Nat) (f : Flowline α), f ∈ net → rank f.hydroseq < n →
      ∃ k nk, k ∈ outlets ∧ findByComid net k = some nk ∧
        ∃ j, atLevelB net outlets [nk.hydroseq] j f = true := by
    intro n
    induction n with
    | zero => intro f _ h; omega
    | succ n ih =>
      intro f hf hr
      by_cases hfo : f.comid ∈ outlets
      · exact ⟨f.comid, f, hfo, findByComid_self hcom hf, 0,
          atLevelB_zero.mpr (by simp)⟩
      · rcases hdown f hf with ⟨g, hg, hgs⟩ | hdhs
        · have hrg : rank g.hydroseq < rank f.hydroseq := hrank f hf g hg hgs
          obtain ⟨k, nk, hk, hnk, j, hat⟩ := ih g hg (by omega)
          exact ⟨k, nk, hk, hnk, j + 1,
            atLevelB_succ.mpr ⟨hfo, g, hg, hgs, hat⟩⟩
        · exact absurd (h987 f hf hdhs) hfo
  -- the seed hypothesis for a listed outlet's singleton seed
  have hseed : ∀ (k : Nat) (nk : Flowline α), k ∈ outlets →
      findByComid net k = some nk →
      ∀ g ∈ net, g.hydroseq ∈ ([nk.hydroseq] : List Nat) → g.comid ∈ outlets := by
    intro k nk hk hnk g hg hgs
    have hgn : g = nk :=
      List.inj_on_of_nodup_map hseq hg (findByComid_comid hnk).1
        (by simpa using hgs)
    rw [hgn, (findByComid_comid hnk).2]
    exact hk
  constructor
  · intro f hf
    obtain ⟨k, nk, hk, hnk, j, hat⟩ :=
      homit (rank f.hydroseq + 1) f hf (by omega)
    refine ⟨(k, floodAux net outlets (net.length + 1) [k]
      ([k].filterMap (hydroseqOf net))), ?_, ?_⟩
    · rw [hmk]
      exact List.mem_map_of_mem _ ((mem_pyDedup _ _).mpr hk)
    · rw [members_eq net outlets k hseq hnk]
      cases j with
      | zero =>
        have hfs : f.hydroseq = nk.hydroseq := by simpa using atLevelB_zero.mp hat
        have hfn : f = nk :=
          List.inj_on_of_nodup_map hseq hf (findByComid_comid hnk).1 hfs
        apply List.mem_append.mpr
        left
        rw [hfn, (findByComid_comid hnk).2]
        simp
      | succ j =>
        apply List.mem_append.mpr
        right
        have hjlt : j + 1 < net.length :=
          atLevel_lt_length net outlets [nk.hydroseq] hseq
            (hseed k nk hk hnk) (j + 1) f hf hat
        exact floodTail_complete net outlets [nk.hydroseq] (net.length + 1) 0
          (j + 1) f hf hat (by omega) (by omega)
  · intro p hp q hq hne c hcp hcq
    rw [hmk] at hp hq
    obtain ⟨k1, hk1, hpk⟩ := List.mem_map.mp hp
    obtain ⟨k2, hk2, hqk⟩ := List.mem_map.mp hq
    have hk1o : k1 ∈ outlets := (mem_pyDedup _ _).mp hk1
    have hk2o : k2 ∈ outlets := (mem_pyDedup _ _).mp hk2
    rw [← hpk] at hcp hne
    rw [← hqk] at hcq hne
    simp only at hcp hcq hne
    rcases mem_members_cases net outlets hseq k1 c hcp with hck1 | hmem1 <;>
      rcases mem_members_cases net outlets hseq k2 c hcq with hck2 | hmem2
    · exact hne (by rw [← hck1, ← hck2])
    · obtain ⟨nk2, j2, f2, hnk2, hf2, hj2, hat2, hfc2⟩ := hmem2
      cases j2 with
      | zero => omega
      | succ j2 =>
        apply (atLevelB_succ.mp hat2).1
        rw [hfc2, hck1]
        exact hk1o
    · obtain ⟨nk1, j1, f1, hnk1, hf1, hj1, hat1, hfc1⟩ := hmem1
      cases j1 with
      | zero => omega
      | succ j1 =>
        apply (atLevelB_succ.mp hat1).1
        rw [hfc1, hck2]
        exact hk2o
    · obtain ⟨nk1, j1, f1, hnk1, hf1, hj1, hat1, hfc1⟩ := hmem1
      obtain ⟨nk2, j2, f2, hnk2, hf2, hj2, hat2, hfc2⟩ := hmem2
      have hff : f1 = f2 :=
        List.inj_on_of_nodup_map hcom hf1 hf2 (by rw [hfc1, hfc2])
      apply hne
      apply atLevel_seed_eq net outlets hseq hnk1 hnk2 hk1o hk2o j1 j2 f1 hf1 hat1
      rw [hff]
      exact hat2

/-- C1 witness: on the synthetic chain with outlets 105 (terminal) and 103, the
subbasins are `105 ↦ [105, 104]` and `103 ↦ [103, 102, 101]`: every loaded comid
is in exactly one member list, as the partition theorem requires. -/
theorem c1_subbasins_partition_witness :
    (∀ f ∈ chainNet, ∃ p ∈ make_subbasins chainNet [105, 103] 105,
      f.comid ∈ p.2) ∧
    (∀ p ∈ make_subbasins chainNet [105, 103] 105,
      ∀ q ∈ make_subbasins chainNet [105, 103] 105,
        p.1 ≠ q.1 → ∀ c, c ∈ p.2 → c ∈ q.2 → False) :=
  c1_subbasins_partition chainNet [105, 103] 105 (fun h => 6 - h)
    (by decide) (by decide) (by decide) (by decide) (by decide)

/-- C10: every execution of `build_watershed` stops at or before the bare `exit()`
immediately after printing the catchment shapefile's field list: whatever the
`Reader` call produces, the function never constructs subbasins, never classifies
inlets or headwaters, never builds the mass-linkage map, and never returns
normally, and whenever the `Reader` call succeeds the interpreter exits via the
`exit()` call with the field list printed. -/
theorem c10_build_watershed_exits (r : Except Unit (List Nat)) :
    (build_watershed r).2.subbasinsConstructed = false ∧
    (build_watershed r).2.inletsClassified = false ∧
    (build_watershed r).2.massLinkageBuilt = false ∧
    (build_watershed r).2.returnedNormally = false ∧
    (∀ fields, r = Except.ok fields →
      (build_watershed r).1 = BWTermination.exitCall ∧
      (build_watershed r).2.printedFields = true) := by
  cases r <;> simp [build_watershed]

end PyHSPF
